import Mathlib

/-!
Verification of the protobuf transport layer of a small FastAPI todo service
(`src/boilerplate/protobuf_utils.py` and `src/boilerplate/main.py`).

Modelling conventions:
* Byte strings are `List Nat` (each element one byte).
* Python `str` values are modelled by their code-point sequences (`strBytes`).
* The protobuf wire format (varints, tag/length-delimited fields) follows the
  external `.proto` contract; the schema file is not part of the repository,
  so field numbers are modelled from the spec's message shapes.
* Raising an exception is modelled with `Except`.
-/

/-- A byte string: the model of Python `bytes`. -/
abbrev ByteStr : Type := List Nat

/-- Model of a Python `str` literal as its sequence of code points. -/
def strBytes (s : String) : ByteStr := s.data.map (fun c => c.toNat)

/-- Protobuf base-128 varint encoding of a natural number
(low seven bits first, high bit of a byte marks continuation). -/
def encodeVarint (n : Nat) : List Nat :=
  if h : n < 128 then [n]
  else (n % 128 + 128) :: encodeVarint (n / 128)
termination_by n
decreasing_by
  exact Nat.div_lt_self (by omega) (by omega)

/-- Protobuf varint decoding: returns the value and the unconsumed bytes,
or `none` when the input ends inside a varint. -/
def decodeVarint : List Nat → Option (Nat × List Nat)
  | [] => none
  | b :: rest =>
    if b < 128 then some (b, rest)
    else
      match decodeVarint rest with
      | none => none
      | some (n, r) => some (n * 128 + (b - 128), r)

theorem decodeVarint_length {l r : List Nat} {n : Nat}
    (h : decodeVarint l = some (n, r)) : r.length < l.length := by
  induction l generalizing n r with
  | nil => exact absurd h (by simp [decodeVarint])
  | cons b rest ih =>
    rw [decodeVarint] at h
    by_cases hb : b < 128
    · rw [if_pos hb] at h
      cases h
      simp
    · rw [if_neg hb] at h
      cases hrec : decodeVarint rest with
      | none => simp only [hrec] at h; exact Option.noConfusion h
      | some p =>
        obtain ⟨m, r0⟩ := p
        simp only [hrec, Option.some.injEq, Prod.mk.injEq] at h
        obtain ⟨h1, h2⟩ := h
        subst h2
        have := ih hrec
        simp only [List.length_cons]
        omega

/-- Decoding is a left inverse of encoding, with arbitrary trailing bytes. -/
theorem decodeVarint_encodeVarint (n : Nat) (t : List Nat) :
    decodeVarint (encodeVarint n ++ t) = some (n, t) := by
  induction n using Nat.strong_induction_on with
  | _ n ih =>
    rw [encodeVarint]
    split
    · simp [decodeVarint, *]
    · rename_i h
      have hrec := ih (n / 128) (Nat.div_lt_self (by omega) (by omega))
      rw [List.cons_append, decodeVarint, if_neg (by omega), hrec]
      have : n / 128 * 128 + (n % 128 + 128 - 128) = n := by omega
      simp only [this]

/-! ### The message family (`protos/todo_pb2`)

Modelled from the spec: the `.proto` schema file is external to the
repository ("a fixed, externally generated data contract"), so the message
shapes follow the spec's data model — CreateRequest{title},
UpdateRequest{completed}, Todo{id,title,completed,created_at},
TodoList{todos}, Stats{total,completed,active},
ApiResponse{success,message,todo?,stats?} — with consecutive field numbers
starting at 1 and proto3 encoding rules (default-valued scalar fields are
omitted on the wire; submessage fields are emitted only when present). -/

/-- `CreateTodoRequest` message: a single string field `title` (field 1). -/
structure CreateTodoRequest where
  title : ByteStr
deriving DecidableEq, Repr

/-- `UpdateTodoRequest` message: a single bool field `completed` (field 1). -/
structure UpdateTodoRequest where
  completed : Bool
deriving DecidableEq, Repr

/-- `Todo` message: id, title, completed, created_at (fields 1-4). -/
structure TodoMsg where
  id : Nat
  title : ByteStr
  completed : Bool
  created_at : Nat
deriving DecidableEq, Repr

/-- `TodoStats` message: total, completed, active (fields 1-3).
The fields are Python ints, modelled as `Int`. -/
structure TodoStats where
  total : Int
  completed : Int
  active : Int
deriving DecidableEq, Repr

/-- `TodoList` message: a repeated `Todo` field (field 1). -/
structure TodoList where
  todos : List TodoMsg
deriving DecidableEq, Repr

/-- `ApiResponse` message: success, message, optional todo, optional stats
(fields 1-4). -/
structure ApiResponse where
  success : Bool
  message : ByteStr
  todo : Option TodoMsg
  stats : Option TodoStats
deriving DecidableEq, Repr

/-- Wire tag of a field: field number shifted left three bits plus wire type. -/
def fieldTag (fieldNum wireType : Nat) : Nat := fieldNum * 8 + wireType

/-- A length-delimited field (wire type 2): tag, payload length, payload. -/
def encLenField (fieldNum : Nat) (payload : ByteStr) : ByteStr :=
  encodeVarint (fieldTag fieldNum 2) ++ encodeVarint payload.length ++ payload

/-- A varint field (wire type 0). -/
def encVarintField (fieldNum value : Nat) : ByteStr :=
  encodeVarint (fieldTag fieldNum 0) ++ encodeVarint value

/-- proto3 string/bytes field: omitted when empty. -/
def encBytesField (fieldNum : Nat) (b : ByteStr) : ByteStr :=
  if b.isEmpty then [] else encLenField fieldNum b

/-- proto3 bool field: omitted when false, varint 1 when true. -/
def encBoolField (fieldNum : Nat) (b : Bool) : ByteStr :=
  if b then encVarintField fieldNum 1 else []

/-- proto3 uint field: omitted when zero. -/
def encNatField (fieldNum : Nat) (n : Nat) : ByteStr :=
  if n = 0 then [] else encVarintField fieldNum n

/-- A signed int on the wire: two's-complement 64-bit varint. -/
def uint64OfInt (n : Int) : Nat := (n % (2 ^ 64 : Nat)).toNat

/-- proto3 int field: omitted when zero. -/
def encIntField (fieldNum : Nat) (n : Int) : ByteStr :=
  if n = 0 then [] else encVarintField fieldNum (uint64OfInt n)

/-- `CreateTodoRequest.SerializeToString`. -/
def CreateTodoRequest.serializeToString (m : CreateTodoRequest) : ByteStr :=
  encBytesField 1 m.title

/-- `UpdateTodoRequest.SerializeToString`. -/
def UpdateTodoRequest.serializeToString (m : UpdateTodoRequest) : ByteStr :=
  encBoolField 1 m.completed

/-- `Todo.SerializeToString`. -/
def TodoMsg.serializeToString (t : TodoMsg) : ByteStr :=
  encNatField 1 t.id ++ encBytesField 2 t.title ++
  encBoolField 3 t.completed ++ encNatField 4 t.created_at

/-- `TodoStats.SerializeToString`. -/
def TodoStats.serializeToString (s : TodoStats) : ByteStr :=
  encIntField 1 s.total ++ encIntField 2 s.completed ++ encIntField 3 s.active

/-- `TodoList.SerializeToString`: each repeated element is its own
length-delimited field-1 record. -/
def TodoList.serializeToString (l : TodoList) : ByteStr :=
  (l.todos.map (fun t => encLenField 1 t.serializeToString)).flatten

/-- `ApiResponse.SerializeToString`. -/
def ApiResponse.serializeToString (r : ApiResponse) : ByteStr :=
  encBoolField 1 r.success ++ encBytesField 2 r.message ++
  (match r.todo with
   | some t => encLenField 3 t.serializeToString
   | none => []) ++
  (match r.stats with
   | some s => encLenField 4 s.serializeToString
   | none => [])

/-- The structured-message family: a Python value `v` satisfies
`isinstance(v, Message)` exactly when it is one of these. -/
inductive Msg where
  | createTodoRequest (m : CreateTodoRequest)
  | updateTodoRequest (m : UpdateTodoRequest)
  | todo (t : TodoMsg)
  | todoList (l : TodoList)
  | todoStats (s : TodoStats)
  | apiResponse (r : ApiResponse)
deriving DecidableEq, Repr

/-- `Message.SerializeToString`, dispatched over the family. -/
def Msg.serializeToString : Msg → ByteStr
  | .createTodoRequest m => m.serializeToString
  | .updateTodoRequest m => m.serializeToString
  | .todo t => t.serializeToString
  | .todoList l => l.serializeToString
  | .todoStats s => s.serializeToString
  | .apiResponse r => r.serializeToString

/-! ### Decoding (`Message.ParseFromString`)

Modelled from the spec and the protobuf wire-format contract the code relies
on: a message is a sequence of tag-prefixed fields; unknown fields are
skipped, not errors; truncated or structurally invalid bytes raise
`DecodeError`. -/

/-- The error raised by the protobuf runtime on malformed input. -/
inductive DecodeError where
  | truncated
  | invalidTag
  | invalidWireType
deriving DecidableEq, Repr

/-- Skip the payload of a field of the given wire type, returning the
remaining bytes, or `none` when the input is truncated or the wire type is
invalid. -/
def skipField (wireType : Nat) (b : List Nat) : Option (List Nat) :=
  if wireType = 0 then
    match decodeVarint b with
    | none => none
    | some (_, r) => some r
  else if wireType = 1 then
    if 8 ≤ b.length then some (b.drop 8) else none
  else if wireType = 2 then
    match decodeVarint b with
    | none => none
    | some (len, r) => if len ≤ r.length then some (r.drop len) else none
  else if wireType = 5 then
    if 4 ≤ b.length then some (b.drop 4) else none
  else none

theorem skipField_length {wireType : Nat} {b r : List Nat}
    (h : skipField wireType b = some r) : r.length ≤ b.length := by
  unfold skipField at h
  split_ifs at h with h0 h1 h2 h5
  · cases hdv : decodeVarint b with
    | none => simp only [hdv] at h; exact Option.noConfusion h
    | some p =>
      obtain ⟨m, r0⟩ := p
      simp only [hdv, Option.some.injEq] at h
      subst h
      exact Nat.le_of_lt (decodeVarint_length hdv)
  · cases h
    simp
  · cases hdv : decodeVarint b with
    | none => simp only [hdv] at h; exact Option.noConfusion h
    | some p =>
      obtain ⟨len, r0⟩ := p
      simp only [hdv] at h
      split_ifs at h
      cases h
      have := decodeVarint_length hdv
      have := List.length_drop len r0
      omega
  · cases h
    simp

/-- The field-parsing loop of `CreateTodoRequest.ParseFromString`: reads
tag-prefixed fields until the input is exhausted.  A field-1
length-delimited record sets `title` (last occurrence wins); any other
field is skipped per its wire type; field number 0 is invalid. -/
def parseCreateLoop (acc : CreateTodoRequest) (b : List Nat) :
    Except DecodeError CreateTodoRequest :=
  if b.isEmpty then .ok acc
  else
    match hdv : decodeVarint b with
    | none => .error .truncated
    | some (tag, rest) =>
      if tag / 8 = 0 then .error .invalidTag
      else if htag : tag / 8 = 1 ∧ tag % 8 = 2 then
        match hlen : decodeVarint rest with
        | none => .error .truncated
        | some (len, r) =>
          if hr : len ≤ r.length then
            parseCreateLoop ⟨r.take len⟩ (r.drop len)
          else .error .truncated
      else
        match hs : skipField (tag % 8) rest with
        | none => .error .invalidWireType
        | some r => parseCreateLoop acc r
termination_by b.length
decreasing_by
  · have h1 := decodeVarint_length hdv
    have h2 := decodeVarint_length hlen
    have := List.length_drop len r
    omega
  · have h1 := decodeVarint_length hdv
    have h2 := skipField_length hs
    omega

/-- `CreateTodoRequest.ParseFromString`: parse into a fresh
default-initialized message. -/
def CreateTodoRequest.parseFromString (b : ByteStr) :
    Except DecodeError CreateTodoRequest :=
  parseCreateLoop ⟨[]⟩ b

theorem encodeVarint_lt {n : Nat} (h : n < 128) : encodeVarint n = [n] := by
  rw [encodeVarint]
  simp [h]

theorem decodeVarint_cons_lt {b : Nat} (x : List Nat) (h : b < 128) :
    decodeVarint (b :: x) = some (b, x) := by
  rw [decodeVarint]
  simp [h]

theorem parseCreateLoop_nil (acc : CreateTodoRequest) :
    parseCreateLoop acc [] = .ok acc := by
  rw [parseCreateLoop]
  rfl

theorem parseCreateLoop_field1 (acc : CreateTodoRequest) (t : ByteStr) :
    parseCreateLoop acc (10 :: (encodeVarint t.length ++ t)) =
      parseCreateLoop ⟨t⟩ [] := by
  have hdv10 : decodeVarint (10 :: (encodeVarint t.length ++ t)) =
      some (10, encodeVarint t.length ++ t) := decodeVarint_cons_lt _ (by omega)
  rw [parseCreateLoop]
  simp only [List.isEmpty_cons, Bool.false_eq_true, if_false]
  split
  · rename_i heq
    rw [hdv10] at heq
    exact Option.noConfusion heq
  · rename_i tag rest heq
    rw [hdv10] at heq
    simp only [Option.some.injEq, Prod.mk.injEq] at heq
    obtain ⟨h1, h2⟩ := heq
    subst h1
    subst h2
    norm_num
    split
    · rename_i heq2
      rw [decodeVarint_encodeVarint] at heq2
      exact Option.noConfusion heq2
    · rename_i len r heq2
      rw [decodeVarint_encodeVarint] at heq2
      simp only [Option.some.injEq, Prod.mk.injEq] at heq2
      obtain ⟨h3, h4⟩ := heq2
      subst h3
      subst h4
      simp

/-! ### `protobuf_utils.py`: response class, body parser, router -/

/-- A Python value handed to `ProtobufResponse.render`: a structured
message, raw bytes, or anything else (tagged by its type name, which is all
`render` uses of it). -/
inductive RenderContent where
  | message (m : Msg)
  | rawBytes (b : ByteStr)
  | other (typeName : String)
deriving DecidableEq, Repr

/-- The `ValueError` raised by `ProtobufResponse.render`. -/
structure ValueErrorMsg where
  errMsg : String
deriving DecidableEq, Repr

/-- `ProtobufResponse.media_type`, the class attribute. -/
def ProtobufResponseMediaType : String := "application/x-protobuf"

/-- `ProtobufResponse.render`: serialize a protobuf `Message`, pass raw
bytes through, and raise `ValueError` for anything else. -/
def ProtobufResponse.render (content : RenderContent) :
    Except ValueErrorMsg ByteStr :=
  match content with
  | .message m => .ok m.serializeToString
  | .rawBytes b => .ok b
  | .other typeName =>
      .error ⟨"Content must be a protobuf Message or bytes, got " ++ typeName⟩

/-- A constructed `ProtobufResponse`: the rendered body together with the
class's media type. -/
structure ProtobufResponseData where
  body : ByteStr
  media_type : String
deriving DecidableEq, Repr

/-- `ProtobufResponse(content)`: rendering the content and stamping the
class media type (raises `ValueError` on non-Message, non-bytes content). -/
def ProtobufResponse.ofContent (content : RenderContent) :
    Except ValueErrorMsg ProtobufResponseData :=
  match ProtobufResponse.render content with
  | .ok b => .ok ⟨b, ProtobufResponseMediaType⟩
  | .error e => .error e

/-- `parse_protobuf_body(request, CreateTodoRequest)`: read the full body
and `ParseFromString` it; a `DecodeError` propagates to the caller. -/
def parse_protobuf_body_create (body : ByteStr) :
    Except DecodeError CreateTodoRequest :=
  CreateTodoRequest.parseFromString body

/-- `ProtobufBody(CreateTodoRequest)`: the dependency closure returned by the
factory; per request it just delegates to `parse_protobuf_body`, catching
nothing. -/
def ProtobufBody_create : ByteStr → Except DecodeError CreateTodoRequest :=
  fun body => parse_protobuf_body_create body

/-- A framework-native return value (e.g. an explicit 404 response object):
the wrapper treats every non-`Message` return as one of these and must not
touch it. -/
structure NativeValue where
  status : Nat
  payload : ByteStr
deriving DecidableEq, Repr

/-- What a handler returns: either a structured message
(`isinstance(result, Message)` true) or any other value. -/
inductive HandlerReturn where
  | message (m : Msg)
  | native (v : NativeValue)
deriving DecidableEq, Repr

/-- What the wrapped endpoint hands back to the framework: a constructed
`ProtobufResponse`, or the untouched original return value. -/
inductive WrappedResult where
  | protoResponse (r : ProtobufResponseData)
  | passthrough (v : NativeValue)
deriving DecidableEq, Repr

/-- `ProtobufRouter._wrap_endpoint`: run the handler, then wrap a `Message`
result in a `ProtobufResponse` and return any other result unchanged.  The
source has an async and a sync branch with identical bodies; the model is
pure, so one function covers both. -/
def wrap_endpoint {α : Type} (func : α → HandlerReturn) : α → WrappedResult :=
  fun a =>
    match func a with
    | .message m => .protoResponse ⟨m.serializeToString, ProtobufResponseMediaType⟩
    | .native v => .passthrough v

/-- One entry of the underlying router's path table. -/
structure RouteEntry (α : Type) where
  verb : String
  path : String
  endpoint : α → WrappedResult
  response_class : String

/-- The underlying FastAPI app/router: its registered routes. -/
structure RouterState (α : Type) where
  routes : List (RouteEntry α)

/-- The decorator produced by `ProtobufRouter._make_method(name)` applied at
`path`: registers the wrapped endpoint (with `response_class` defaulted to
`ProtobufResponse`) on the underlying router and returns the original
function. -/
def ProtobufRouter.register {α : Type} (router : RouterState α)
    (name path : String) (func : α → HandlerReturn) :
    RouterState α × (α → HandlerReturn) :=
  (⟨router.routes ++ [⟨name, path, wrap_endpoint func, "ProtobufResponse"⟩]⟩,
   func)

/-- `proto.get` — `_make_method("get")`. -/
def ProtobufRouter.get {α : Type} (router : RouterState α) :
    String → (α → HandlerReturn) → RouterState α × (α → HandlerReturn) :=
  fun path func => ProtobufRouter.register router "get" path func

/-- `proto.post` — `_make_method("post")`. -/
def ProtobufRouter.post {α : Type} (router : RouterState α) :
    String → (α → HandlerReturn) → RouterState α × (α → HandlerReturn) :=
  fun path func => ProtobufRouter.register router "post" path func

/-- `proto.put` — `_make_method("put")`. -/
def ProtobufRouter.put {α : Type} (router : RouterState α) :
    String → (α → HandlerReturn) → RouterState α × (α → HandlerReturn) :=
  fun path func => ProtobufRouter.register router "put" path func

/-- `proto.delete` — `_make_method("delete")`. -/
def ProtobufRouter.delete {α : Type} (router : RouterState α) :
    String → (α → HandlerReturn) → RouterState α × (α → HandlerReturn) :=
  fun path func => ProtobufRouter.register router "delete" path func

/-! ### `main.py`: the todo store and the protobuf API handlers

The DuckDB table `todos(id, title, completed, created_at)` is modelled as a
list of rows plus the `todo_id_seq` sequence counter; each handler maps the
incoming database state to its return value and the resulting state.
`CURRENT_TIMESTAMP` and `time.time()` are supplied as a `now` argument. -/

/-- One row of the `todos` table.  `created_at` is nullable in the Python
row tuple (`row[3]` is guarded), hence `Option`. -/
structure TodoRow where
  id : Nat
  title : ByteStr
  completed : Bool
  created_at : Option Nat
deriving DecidableEq, Repr

/-- The database: the `todos` table plus the `todo_id_seq` sequence. -/
structure DB where
  rows : List TodoRow
  nextId : Nat
deriving DecidableEq, Repr

/-- The freshly initialized database of `init_db`: empty table, sequence at 1. -/
def DB.init : DB := ⟨[], 1⟩

/-- `row_to_todo_proto`: convert a row to a `Todo` message;
`int(row[3].timestamp()) if row[3] else int(time.time())`. -/
def row_to_todo_proto (now : Nat) (row : TodoRow) : TodoMsg :=
  { id := row.id
    title := row.title
    completed := row.completed
    created_at := match row.created_at with
      | some ts => ts
      | none => now }

/-- `HTTPException(status_code=404)`: FastAPI's HTTP error, with no detail
argument supplied. -/
structure HTTPExceptionData where
  status_code : Nat
  detail : Option String
deriving DecidableEq, Repr

/-- `create_todo_proto` (POST /api/todos): insert a row (id from the
sequence, completed false, created_at defaulted by the store) and answer
with an `ApiResponse` carrying the created todo. -/
def create_todo_proto (now : Nat) (db : DB) (req : CreateTodoRequest) :
    ApiResponse × DB :=
  let row : TodoRow :=
    { id := db.nextId, title := req.title, completed := false,
      created_at := some now }
  ({ success := true, message := strBytes "Todo created",
     todo := some (row_to_todo_proto now row), stats := none },
   { rows := db.rows ++ [row], nextId := db.nextId + 1 })

/-- `toggle_todo_proto` (PUT /api/todos/{id}/toggle): run the UPDATE
(matching zero or one rows), then SELECT the row back; raise
`HTTPException(404)` when it is absent, else answer with the updated todo.
The UPDATE has already been executed when the 404 is raised, so the
resulting database state is returned on both paths. -/
def toggle_todo_proto (now : Nat) (db : DB) (todo_id : Nat)
    (req : UpdateTodoRequest) : Except HTTPExceptionData ApiResponse × DB :=
  let updated := db.rows.map
    (fun r => if r.id = todo_id then { r with completed := req.completed } else r)
  let db' : DB := { db with rows := updated }
  match updated.find? (fun r => r.id = todo_id) with
  | none => (.error { status_code := 404, detail := none }, db')
  | some row =>
      (.ok { success := true, message := strBytes "Todo updated",
             todo := some (row_to_todo_proto now row), stats := none },
       db')

/-- `delete_todo_proto` (DELETE /api/todos/{id}): DELETE the row (matching
zero or one rows — no existence check) and always answer success. -/
def delete_todo_proto (db : DB) (todo_id : Nat) : ApiResponse × DB :=
  ({ success := true, message := strBytes "Todo deleted",
     todo := none, stats := none },
   { db with rows := db.rows.filter (fun r => ¬ r.id = todo_id) })

/-- `get_stats_proto` (GET /api/stats): COUNT all rows, COUNT completed
rows, and answer `TodoStats(total, completed, active=total-completed)`. -/
def get_stats_proto (db : DB) : ApiResponse :=
  let total : Int := db.rows.length
  let completed : Int := (db.rows.filter (fun r => r.completed)).length
  { success := true, message := strBytes "",
    todo := none,
    stats := some { total := total, completed := completed,
                    active := total - completed } }

/-- One mutating API call, for stating properties over operation
sequences. -/
inductive Op where
  | create (req : CreateTodoRequest)
  | toggle (todo_id : Nat) (req : UpdateTodoRequest)
  | delete (todo_id : Nat)
deriving DecidableEq, Repr

/-- The database state an operation leaves behind. -/
def applyOp (now : Nat) (db : DB) : Op → DB
  | .create req => (create_todo_proto now db req).2
  | .toggle todo_id req => (toggle_todo_proto now db todo_id req).2
  | .delete todo_id => (delete_todo_proto db todo_id).2

/-- Run a sequence of operations from a database state. -/
def applyOps (now : Nat) (db : DB) (ops : List Op) : DB :=
  ops.foldl (applyOp now) db

/-- Modelled from the spec: the hosting framework's standard error path is
FastAPI itself, which is not part of the repository.  Per the spec, a
decode failure propagating out of the Body-Decoding Parameter Provider
"must propagate up and be converted to a 400-class response by the hosting
framework's standard error path"; a propagating error short-circuits the
handler.  This runs one request whose body is decoded by
`ProtobufBody(CreateTodoRequest)` before the handler executes. -/
def runCreateRequest (body : ByteStr)
    (handler : CreateTodoRequest → HandlerReturn) :
    Except Nat HandlerReturn :=
  match ProtobufBody_create body with
  | .error _ => .error 400
  | .ok req => .ok (handler req)

/-! ### Claim theorems -/

/-- C1: the Transport-Adapting Router's wrapper answers a handler that
returns a structured message with that message serialized under the binary
media type `application/x-protobuf`, and passes every other return value
through unchanged. -/
theorem wrap_endpoint_message_encoded_native_passthrough {α : Type}
    (func : α → HandlerReturn) (a : α) :
    (∀ m : Msg, func a = .message m →
      wrap_endpoint func a =
        .protoResponse ⟨m.serializeToString, "application/x-protobuf"⟩) ∧
    (∀ v : NativeValue, func a = .native v →
      wrap_endpoint func a = .passthrough v) := by
  constructor
  · intro m h
    simp [wrap_endpoint, h, ProtobufResponseMediaType]
  · intro v h
    simp [wrap_endpoint, h]

/-- Witness for C1 at two concrete handlers: one returning an `ApiResponse`
message, one returning a native 404 value. -/
theorem wrap_endpoint_message_encoded_native_passthrough_witness :
    wrap_endpoint
        (fun _ : Unit => HandlerReturn.message (.apiResponse ⟨true, [], none, none⟩)) () =
      .protoResponse ⟨(Msg.apiResponse ⟨true, [], none, none⟩).serializeToString,
        "application/x-protobuf"⟩ ∧
    wrap_endpoint (fun _ : Unit => HandlerReturn.native ⟨404, []⟩) () =
      .passthrough ⟨404, []⟩ :=
  ⟨(wrap_endpoint_message_encoded_native_passthrough _ ()).1 _ rfl,
   (wrap_endpoint_message_encoded_native_passthrough _ ()).2 _ rfl⟩

/-- C2: decoding the bytes produced by encoding a `CreateTodoRequest`
yields the same message (encode/decode round trip of the Message Codec). -/
theorem createTodoRequest_roundtrip (m : CreateTodoRequest) :
    CreateTodoRequest.parseFromString (CreateTodoRequest.serializeToString m) =
      .ok m := by
  obtain ⟨t⟩ := m
  unfold CreateTodoRequest.parseFromString CreateTodoRequest.serializeToString
    encBytesField
  by_cases h : t.isEmpty
  · rw [if_pos (by exact h)]
    rw [parseCreateLoop_nil]
    rw [List.isEmpty_iff.mp h]
  · rw [if_neg (by exact h)]
    unfold encLenField fieldTag
    rw [show (1 * 8 + 2 : Nat) = 10 by norm_num, encodeVarint_lt (by omega),
      List.singleton_append]
    show parseCreateLoop ⟨[]⟩ (10 :: (encodeVarint t.length ++ t)) = Except.ok ⟨t⟩
    rw [parseCreateLoop_field1, parseCreateLoop_nil]

/-- C3: a body the Message Codec cannot decode makes the Body-Decoding
Parameter Provider yield a `DecodeError`, and the request is answered with
a 400-class — never 500-class — status.  (The conversion of the
propagating error to a status is the hosting framework's, modelled from
the spec in `runCreateRequest`; the provider itself catches nothing and
the decoder is a total function, so no crash is possible.) -/
theorem malformed_body_surfaces_400 (body : ByteStr)
    (handler : CreateTodoRequest → HandlerReturn)
    (h : ∃ e, ProtobufBody_create body = .error e) :
    ∃ s, runCreateRequest body handler = .error s ∧ 400 ≤ s ∧ s < 500 := by
  obtain ⟨e, he⟩ := h
  refine ⟨400, ?_, by omega, by omega⟩
  unfold runCreateRequest
  rw [he]

/-- Witness for C3: the single byte `0x0a` — a field-1 tag with its length
truncated away — fails to decode and is answered 400. -/
theorem malformed_body_surfaces_400_witness :
    (∃ e, ProtobufBody_create [10] = .error e) ∧
    (∃ s, runCreateRequest [10] (fun _ => .native ⟨200, []⟩) = .error s ∧
      400 ≤ s ∧ s < 500) := by
  have h10 : ProtobufBody_create [10] = .error .truncated := by
    unfold ProtobufBody_create parse_protobuf_body_create
      CreateTodoRequest.parseFromString
    rw [parseCreateLoop]
    simp only [List.isEmpty_cons, Bool.false_eq_true, if_false]
    split
    · rename_i heq
      rw [show decodeVarint [10] = some (10, []) from rfl] at heq
    · rename_i tag rest heq
      rw [show decodeVarint [10] = some (10, []) from rfl] at heq
      simp only [Option.some.injEq, Prod.mk.injEq] at heq
      obtain ⟨h1, h2⟩ := heq
      subst h1
      subst h2
      rw [if_neg (by norm_num : ¬(10 / 8 = 0))]
      rw [dif_pos (by norm_num : 10 / 8 = 1 ∧ 10 % 8 = 2)]
      split
      · rfl
      · rename_i len r heq2
        simp [decodeVarint] at heq2
  exact ⟨⟨.truncated, h10⟩,
    malformed_body_surfaces_400 [10] _ ⟨.truncated, h10⟩⟩

/-- C4: after any sequence of create/toggle/delete operations from the
fresh store, the `Stats` message built by GET /api/stats satisfies
`active == total - completed` and `active + completed == total`. -/
theorem stats_invariant (now : Nat) (ops : List Op) :
    ∃ s : TodoStats,
      (get_stats_proto (applyOps now DB.init ops)).stats = some s ∧
      s.active = s.total - s.completed ∧
      s.active + s.completed = s.total := by
  refine ⟨_, rfl, rfl, ?_⟩
  simp [get_stats_proto]

/-- C5: toggling a todo id with no row in the store yields
`HTTPException(status_code=404)` with no detail — an error, not an
`ApiResponse` envelope (so in particular no `success=false` response). -/
theorem toggle_missing_id_404 (now : Nat) (db : DB) (todo_id : Nat)
    (req : UpdateTodoRequest) (h : ∀ r ∈ db.rows, r.id ≠ todo_id) :
    (toggle_todo_proto now db todo_id req).1 =
      .error { status_code := 404, detail := none } := by
  unfold toggle_todo_proto
  have hfind : (db.rows.map
      (fun r => if r.id = todo_id then { r with completed := req.completed }
                else r)).find? (fun r => r.id = todo_id) = none := by
    rw [List.find?_eq_none]
    intro x hx
    obtain ⟨a, ha, rfl⟩ := List.mem_map.mp hx
    rw [if_neg (h a ha)]
    simp [h a ha]
  simp only [hfind]

/-- Witness for C5: store holding only todo 1, toggling id 2. -/
theorem toggle_missing_id_404_witness :
    (∀ r ∈ (DB.mk [⟨1, [97], false, some 5⟩] 2).rows, r.id ≠ 2) ∧
    (toggle_todo_proto 7 (DB.mk [⟨1, [97], false, some 5⟩] 2) 2 ⟨true⟩).1 =
      .error { status_code := 404, detail := none } :=
  ⟨by decide, toggle_missing_id_404 7 _ 2 ⟨true⟩ (by decide)⟩

/-- C6: DELETE always answers `ApiResponse(success=True,
message="Todo deleted")` with no todo and no stats payload, for every id —
present in the store or not; the handler checks nothing. -/
theorem delete_always_reports_success (db : DB) (todo_id : Nat) :
    (delete_todo_proto db todo_id).1 =
      { success := true, message := strBytes "Todo deleted",
        todo := none, stats := none } := rfl

/-- C7: each verb decorator of the `ProtobufRouter` returns the original
handler function itself, so it stays independently callable unchanged. -/
theorem router_decorators_return_original {α : Type} (router : RouterState α)
    (path : String) (func : α → HandlerReturn) :
    (ProtobufRouter.get router path func).2 = func ∧
    (ProtobufRouter.post router path func).2 = func ∧
    (ProtobufRouter.put router path func).2 = func ∧
    (ProtobufRouter.delete router path func).2 = func :=
  ⟨rfl, rfl, rfl, rfl⟩

/-- C8: `ProtobufResponse.render` emits a raw-bytes content value exactly
as given (raw-bytes passthrough identity). -/
theorem render_raw_bytes_passthrough (b : ByteStr) :
    ProtobufResponse.render (.rawBytes b) = .ok b := rfl

/-- C9: `ProtobufResponse.render` raises `ValueError` on any content that
is neither a protobuf `Message` nor raw bytes, producing no byte output. -/
theorem render_other_raises_valueError (typeName : String) :
    ProtobufResponse.render (.other typeName) =
      .error ⟨"Content must be a protobuf Message or bytes, got " ++ typeName⟩ :=
  rfl

/-- C10: when the toggled id has no row, the UPDATE issued before the
existence check matches nothing, so the 404 exit leaves the todo table
exactly as it was. -/
theorem toggle_missing_id_leaves_db_unchanged (now : Nat) (db : DB)
    (todo_id : Nat) (req : UpdateTodoRequest)
    (h : ∀ r ∈ db.rows, r.id ≠ todo_id) :
    (toggle_todo_proto now db todo_id req).2 = db := by
  unfold toggle_todo_proto
  have hmap : db.rows.map
      (fun r => if r.id = todo_id then { r with completed := req.completed }
                else r) = db.rows := by
    rw [List.map_congr_left (fun a ha => by rw [if_neg (h a ha)])]
    exact List.map_id' db.rows
  simp only [hmap]
  split <;> rfl

/-- Witness for C10: store holding only todo 1, toggling id 5 — the store
comes back unchanged. -/
theorem toggle_missing_id_leaves_db_unchanged_witness :
    (∀ r ∈ (DB.mk [⟨1, [98], true, some 3⟩] 2).rows, r.id ≠ 5) ∧
    (toggle_todo_proto 9 (DB.mk [⟨1, [98], true, some 3⟩] 2) 5 ⟨false⟩).2 =
      DB.mk [⟨1, [98], true, some 3⟩] 2 :=
  ⟨by decide, toggle_missing_id_leaves_db_unchanged 9 _ 5 ⟨false⟩ (by decide)⟩
